import Mathlib

/-!
Verification of the authenticated-playback request pipeline of the
`linslouis/receiver` Cast receiver (`src/receiver.js`, primary document,
lines 1-279; the third document, lines 841-1050, repeats the same
`injectAuthHeaders` and LOAD interceptor).

The embedding models:
  * the Header Store (`globalRequestHeaders`, line 30) as an association
    list of header name/value pairs (JS object, unique keys, insertion
    order preserved);
  * the Request Augmenter `injectAuthHeaders` (lines 65-76) as a pure
    function from the store and a request descriptor to the updated
    request descriptor;
  * the LOAD message interceptor (lines 94-135) as a pure function from
    the store and a `LoadRequestData` to a result record carrying the
    returned descriptor, the new store, the debug-overlay status updates
    (`updateDebugStatus` calls), whether a console error was logged, and
    the liveness classification (when computed);
  * the ERROR event listener (lines 145-163) as a pure function from the
    optional detailed error code to the status update it emits.
-/

namespace Receiver

/-- A header collection: a JS object viewed as an association list of
name/value pairs in property-insertion order. -/
abbrev HeaderMap := List (String × String)

/-- JS property write `obj[k] = v`: overwrite the existing property in
place, otherwise append it at the end. -/
def setKey : HeaderMap → String → String → HeaderMap
  | [], k, v => [(k, v)]
  | (k', v') :: rest, k, v =>
      if k' = k then (k, v) :: rest else (k', v') :: setKey rest k v

/-- JS property read `obj[k]`: the value stored at the first (unique)
occurrence of the key, `none` when absent. -/
def getKey : HeaderMap → String → Option String
  | [], _ => none
  | (k', v') :: rest, k => if k' = k then some v' else getKey rest k

/-- The keys of a header collection. -/
def keysOf (h : HeaderMap) : List String := h.map Prod.fst

/-- The loop body of `injectAuthHeaders` (receiver.js lines 67-69):
`for (const [key, value] of Object.entries(store)) headers[key] = value`. -/
def injectList (store : HeaderMap) (headers : HeaderMap) : HeaderMap :=
  store.foldl (fun h kv => setKey h kv.1 kv.2) headers

/-- A network request descriptor (`cast.framework.NetworkRequestInfo`):
the fields the source reads or writes are `url` and `headers`. -/
structure RequestInfo where
  url : String
  headers : HeaderMap
  deriving DecidableEq, Repr

/-- The Request Augmenter `injectAuthHeaders` (receiver.js lines 65-76):
if the Header Store is non-empty, write every store entry into
`requestInfo.headers`; otherwise do nothing.  (The occasional
`console.log` inside the guard is pure observability and touches no
program state.) -/
def injectAuthHeaders (store : HeaderMap) (requestInfo : RequestInfo) : RequestInfo :=
  if store.length > 0 then
    { requestInfo with headers := injectList store requestInfo.headers }
  else
    requestInfo

/-- The playback configuration: the three request-handler slots set at
receiver.js lines 79-81. -/
structure PlaybackConfig where
  manifestRequestHandler : HeaderMap → RequestInfo → RequestInfo
  segmentRequestHandler : HeaderMap → RequestInfo → RequestInfo
  licenseRequestHandler : HeaderMap → RequestInfo → RequestInfo

/-- `playbackConfig.manifestRequestHandler = injectAuthHeaders;` etc.
(receiver.js lines 79-81): all three kinds get the same function. -/
def playbackConfig : PlaybackConfig :=
  { manifestRequestHandler := injectAuthHeaders
    segmentRequestHandler := injectAuthHeaders
    licenseRequestHandler := injectAuthHeaders }

/-- JS truthiness of an optional string field (`undefined`, `null` and
`""` are falsy). -/
def jsTruthyStr : Option String → Bool
  | none => false
  | some s => !(s == "")

/-- The declared stream kind (`cast.framework.messages.StreamType`). -/
inductive StreamType where
  | LIVE
  | BUFFERED
  | NONE
  deriving DecidableEq, Repr

/-- The fields of `media.customData` the source reads: the optional
header mapping and the optional liveness hint. -/
structure CustomData where
  headers : Option HeaderMap
  isLive : Option Bool
  deriving DecidableEq, Repr

/-- The fields of `loadRequestData.media` the source reads. -/
structure MediaInformation where
  contentId : Option String
  contentType : Option String
  streamType : StreamType
  customData : Option CustomData
  deriving DecidableEq, Repr

/-- A LOAD request (`cast.framework.messages.LoadRequestData`): the
source only reads its `media` field. -/
structure LoadRequestData where
  media : Option MediaInformation
  deriving DecidableEq, Repr

/-- One `updateDebugStatus(message, isError)` call (receiver.js
lines 18-24): a short human-readable string plus a severity flag — the
status surface. -/
structure StatusUpdate where
  message : String
  isError : Bool
  deriving DecidableEq, Repr

/-- The condition `media.customData && media.customData.headers`
(receiver.js line 110): the header mapping carried by the LOAD, when
present (an empty mapping is an object, hence truthy). -/
def headersFromMedia (m : MediaInformation) : Option HeaderMap :=
  match m.customData with
  | none => none
  | some cd => cd.headers

/-- `media.customData?.isLive || media.streamType === StreamType.LIVE`
(receiver.js line 129). -/
def isLive (m : MediaInformation) : Bool :=
  (match m.customData with
   | none => false
   | some cd => cd.isLive.getD false)
  || (m.streamType == StreamType.LIVE)

/-- Status message emitted when headers were extracted (line 120). -/
def headersExtractedMsg : String := "🟢 Headers extracted - ready to play"

/-- Status message emitted when no header payload was found (line 125). -/
def noHeadersMsg : String := "🟡 No auth headers - playing without"

/-- The observable outcome of one run of the LOAD message interceptor:
the descriptor it returns, the Header Store after the run, the
`updateDebugStatus` calls it made (the status surface), whether it
logged a `console.error`, and the liveness classification when the run
reached the classification step (line 129), `none` when it did not. -/
structure LoadResult where
  returned : LoadRequestData
  store : HeaderMap
  statusUpdates : List StatusUpdate
  errorLogged : Bool
  classification : Option Bool
  deriving DecidableEq, Repr

/-- The LOAD message interceptor (receiver.js lines 94-135), as a pure
function of the Header Store before the call and the intercepted
`loadRequestData`.  `!media || !media.contentId` (line 100) logs a
console error and returns early; otherwise the header mapping carried in
`customData` replaces the store (line 111) or the store is reset to
empty (line 124), a status update is emitted, liveness is classified
(line 129) and the descriptor is returned unmodified (line 134). -/
def loadInterceptor (store : HeaderMap) (loadRequestData : LoadRequestData) :
    LoadResult :=
  match loadRequestData.media with
  | none =>
      { returned := loadRequestData, store := store, statusUpdates := [],
        errorLogged := true, classification := none }
  | some media =>
      if jsTruthyStr media.contentId then
        match headersFromMedia media with
        | some h =>
            { returned := loadRequestData, store := h,
              statusUpdates := [⟨headersExtractedMsg, false⟩],
              errorLogged := false, classification := some (isLive media) }
        | none =>
            { returned := loadRequestData, store := [],
              statusUpdates := [⟨noHeadersMsg, false⟩],
              errorLogged := false, classification := some (isLive media) }
      else
        { returned := loadRequestData, store := store, statusUpdates := [],
          errorLogged := true, classification := none }

/-- Whether `pat` occurs as a contiguous run inside `l`. -/
def containsPat (pat : List Char) : List Char → Bool
  | [] => pat.isEmpty
  | c :: rest => pat.isPrefixOf (c :: rest) || containsPat pat rest

/-- JS `String.prototype.includes`: substring containment. -/
def includes (s pat : String) : Bool := containsPat pat.toList s.toList

/-- Status message of the authentication-failure branch (line 158). -/
def authErrorMsg : String := "🔴 Auth Error - Check headers"

/-- Status message of the generic playback-failure branch (line 160). -/
def playbackErrorMsg : String := "🔴 Playback Error - See console"

/-- The ERROR event listener (receiver.js lines 145-163), as a function
of `event.detailedErrorCode`: when the code is truthy and contains
`"403"` or `"401"` it reports an authentication failure, otherwise a
generic playback failure; both branches end in a status update and the
listener returns normally. -/
def errorListener (detailedErrorCode : Option String) : StatusUpdate :=
  if jsTruthyStr detailedErrorCode
      && (includes (detailedErrorCode.getD "") "403"
          || includes (detailedErrorCode.getD "") "401") then
    ⟨authErrorMsg, true⟩
  else
    ⟨playbackErrorMsg, true⟩

/-! ### Lemmas about the header-collection operations -/

theorem getKey_setKey_self (l : HeaderMap) (k v : String) :
    getKey (setKey l k v) k = some v := by
  induction l with
  | nil => simp [setKey, getKey]
  | cons p rest ih =>
      obtain ⟨k', v'⟩ := p
      by_cases h : k' = k
      · simp [setKey, h, getKey]
      · simp [setKey, h, getKey, ih]

theorem getKey_setKey_ne (l : HeaderMap) (k v k' : String) (h : k' ≠ k) :
    getKey (setKey l k v) k' = getKey l k' := by
  have hne : ¬k = k' := fun hh => h hh.symm
  induction l with
  | nil => simp [setKey, getKey, hne]
  | cons p rest ih =>
      obtain ⟨k₀, v₀⟩ := p
      by_cases h₀ : k₀ = k
      · subst h₀
        simp [setKey, getKey, hne]
      · simp [setKey, h₀, getKey, ih]

theorem setKey_of_getKey_eq (l : HeaderMap) (k v : String)
    (hget : getKey l k = some v) : setKey l k v = l := by
  induction l with
  | nil => simp [getKey] at hget
  | cons p rest ih =>
      obtain ⟨k₀, v₀⟩ := p
      by_cases h₀ : k₀ = k
      · subst h₀
        simp [getKey] at hget
        simp [setKey, hget]
      · simp only [getKey, if_neg h₀] at hget
        simp [setKey, h₀, ih hget]

theorem getKey_injectList_notMem (store : HeaderMap) (h : HeaderMap)
    (k : String) (hk : k ∉ keysOf store) :
    getKey (injectList store h) k = getKey h k := by
  induction store generalizing h with
  | nil => simp [injectList]
  | cons p rest ih =>
      obtain ⟨k₀, v₀⟩ := p
      simp only [keysOf, List.map_cons, List.mem_cons] at hk
      push_neg at hk
      have hstep : getKey (injectList rest (setKey h k₀ v₀)) k
          = getKey (setKey h k₀ v₀) k := ih (setKey h k₀ v₀) hk.2
      simpa [injectList, getKey_setKey_ne h k₀ v₀ k hk.1] using hstep

theorem getKey_injectList_mem (store : HeaderMap) (h : HeaderMap)
    (k v : String) (hnd : (keysOf store).Nodup) (hkv : (k, v) ∈ store) :
    getKey (injectList store h) k = some v := by
  induction store generalizing h with
  | nil => simp at hkv
  | cons p rest ih =>
      obtain ⟨k₀, v₀⟩ := p
      simp only [keysOf, List.map_cons, List.nodup_cons] at hnd
      rcases List.mem_cons.mp hkv with heq | htail
      · have hk : k = k₀ := congrArg Prod.fst heq
        have hv : v = v₀ := congrArg Prod.snd heq
        subst hk; subst hv
        have hrest : getKey (injectList rest (setKey h k v)) k
            = getKey (setKey h k v) k :=
          getKey_injectList_notMem rest (setKey h k v) k hnd.1
        simpa [injectList, getKey_setKey_self] using hrest
      · exact ih (setKey h k₀ v₀) hnd.2 htail

theorem injectList_fixpoint (store : HeaderMap) (h : HeaderMap)
    (hfix : ∀ k v, (k, v) ∈ store → getKey h k = some v) :
    injectList store h = h := by
  induction store with
  | nil => simp [injectList]
  | cons p rest ih =>
      obtain ⟨k₀, v₀⟩ := p
      have hhead : setKey h k₀ v₀ = h :=
        setKey_of_getKey_eq h k₀ v₀ (hfix k₀ v₀ (List.mem_cons_self _ _))
      show injectList rest (setKey h k₀ v₀) = h
      rw [hhead]
      exact ih fun k v hkv => hfix k v (List.mem_cons_of_mem _ hkv)

theorem injectList_idem (store : HeaderMap) (h : HeaderMap)
    (hnd : (keysOf store).Nodup) :
    injectList store (injectList store h) = injectList store h :=
  injectList_fixpoint store (injectList store h)
    fun k v hkv => getKey_injectList_mem store h k v hnd hkv

theorem injectAuthHeaders_eq (store : HeaderMap) (r : RequestInfo) :
    injectAuthHeaders store r = { r with headers := injectList store r.headers } := by
  cases store with
  | nil => simp [injectAuthHeaders, injectList]
  | cons p rest => simp [injectAuthHeaders]

/-- JS `String.prototype.endsWith`, used to state the locator-extension
conditions of the spec's claims (the source itself never inspects the
locator's extension). -/
def endsWithExt (s ext : String) : Bool :=
  ext.toList.reverse.isPrefixOf s.toList.reverse

/-- In every branch, the LOAD interceptor returns the very
`loadRequestData` value it was handed (receiver.js lines 102, 134). -/
theorem loadInterceptor_returned_eq (store : HeaderMap) (L : LoadRequestData) :
    (loadInterceptor store L).returned = L := by
  unfold loadInterceptor
  cases hm : L.media with
  | none => rfl
  | some m =>
      by_cases hv : jsTruthyStr m.contentId
      · cases hh : headersFromMedia m <;> simp [hv, hh]
      · simp [hv]

/-! ### Claim theorems -/

/-- C1: the Header Store after a second LOAD L2 (with media present and
a truthy content locator) equals exactly the header mapping carried by
L2 — the mapping from `customData.headers` when present, the empty
mapping when absent — independently of the initial store and of the
first LOAD L1; hence no key established by L1 survives unless L2 itself
carries it. -/
theorem headerStore_full_replacement (s₀ : HeaderMap)
    (L₁ L₂ : LoadRequestData) (m₂ : MediaInformation)
    (hm : L₂.media = some m₂) (hv : jsTruthyStr m₂.contentId = true) :
    (loadInterceptor (loadInterceptor s₀ L₁).store L₂).store
      = (headersFromMedia m₂).getD [] := by
  generalize (loadInterceptor s₀ L₁).store = s₁
  unfold loadInterceptor
  rw [hm]
  cases hh : headersFromMedia m₂ <;> simp [hv, hh]

/-- Witness for C1: a LOAD with headers `X-Old ↦ 1` followed by a LOAD
with headers `B ↦ b` leaves the store at exactly `B ↦ b`. -/
theorem headerStore_full_replacement_witness :
    (loadInterceptor
        (loadInterceptor []
          ⟨some ⟨some "https://x/a.m3u8", some "application/x-mpegURL",
                 StreamType.LIVE, some ⟨some [("X-Old", "1")], none⟩⟩⟩).store
        ⟨some ⟨some "https://x/b.mp4", some "video/mp4",
               StreamType.BUFFERED, some ⟨some [("B", "b")], none⟩⟩⟩).store
      = [("B", "b")] :=
  headerStore_full_replacement [] _ _
    ⟨some "https://x/b.mp4", some "video/mp4",
     StreamType.BUFFERED, some ⟨some [("B", "b")], none⟩⟩ rfl (by decide)

/-- C2: for a Header Store with (JS-object) distinct keys, the Request
Augmenter writes every store entry `k ↦ v` into the request's header
collection — overwriting any pre-populated value for `k` — and the very
same function `injectAuthHeaders` is installed as the manifest, segment
and license request handler. -/
theorem augmenter_fidelity_uniform (store : HeaderMap) (req : RequestInfo)
    (k v : String) (hnd : (keysOf store).Nodup) (hkv : (k, v) ∈ store) :
    getKey (injectAuthHeaders store req).headers k = some v
      ∧ playbackConfig.manifestRequestHandler = injectAuthHeaders
      ∧ playbackConfig.segmentRequestHandler = injectAuthHeaders
      ∧ playbackConfig.licenseRequestHandler = injectAuthHeaders := by
  refine ⟨?_, rfl, rfl, rfl⟩
  rw [injectAuthHeaders_eq]
  exact getKey_injectList_mem store req.headers k v hnd hkv

/-- Witness for C2: the store value `Authorization ↦ Bearer abc`
overwrites the host's pre-populated `Authorization ↦ old`. -/
theorem augmenter_fidelity_uniform_witness :
    getKey (injectAuthHeaders [("Authorization", "Bearer abc")]
        ⟨"https://x/live/seg1.ts", [("Authorization", "old"), ("Accept", "x")]⟩).headers
        "Authorization" = some "Bearer abc"
      ∧ playbackConfig.manifestRequestHandler = injectAuthHeaders
      ∧ playbackConfig.segmentRequestHandler = injectAuthHeaders
      ∧ playbackConfig.licenseRequestHandler = injectAuthHeaders :=
  augmenter_fidelity_uniform [("Authorization", "Bearer abc")]
    ⟨"https://x/live/seg1.ts", [("Authorization", "old"), ("Accept", "x")]⟩
    "Authorization" "Bearer abc" (by decide) (by decide)

/-- C3 counterexample: a LOAD whose locator ends in the
streaming-playlist extension `.m3u8`, with declared stream kind BUFFERED
and no liveness hint, is classified NOT live — the source (receiver.js
line 129) never consults the locator, so the extension signal claimed by
the spec does not exist. -/
theorem isLive_extension_counterexample :
    endsWithExt "http://x/chan.m3u8" ".m3u8" = true ∧
    isLive ⟨some "http://x/chan.m3u8", some "video/mp4",
            StreamType.BUFFERED, some ⟨none, none⟩⟩ = false := by
  decide

/-- C3 amended: liveness classification uses OR semantics over the two
signals the source actually reads — the `customData.isLive` hint and the
declared stream kind: declared kind LIVE alone suffices, a true liveness
hint alone suffices, the content locator has no effect whatsoever, and
with neither signal the classification is not live. -/
theorem isLive_two_signal_or :
    (∀ m : MediaInformation, m.streamType = StreamType.LIVE → isLive m = true) ∧
    (∀ m : MediaInformation, ∀ cd : CustomData, m.customData = some cd →
        cd.isLive = some true → isLive m = true) ∧
    (∀ m : MediaInformation, ∀ u₁ u₂ : Option String,
        isLive { m with contentId := u₁ } = isLive { m with contentId := u₂ }) ∧
    (∀ m : MediaInformation, m.streamType ≠ StreamType.LIVE →
        m.customData.bind CustomData.isLive ≠ some true → isLive m = false) := by
  refine ⟨?_, ?_, ?_, ?_⟩
  · intro m h
    simp [isLive, h]
  · intro m cd hcd hl
    simp [isLive, hcd, hl]
  · intro m u₁ u₂
    rfl
  · intro m h1 h2
    cases hm : m.customData with
    | none => simp [isLive, hm, beq_iff_eq, h1]
    | some cd =>
        cases hl : cd.isLive with
        | none => simp [isLive, hm, hl, beq_iff_eq, h1]
        | some b =>
            cases b with
            | false => simp [isLive, hm, hl, beq_iff_eq, h1]
            | true =>
                rw [hm] at h2
                simp [hl] at h2

/-- Witness for C3 amended: declared kind LIVE yields a live
classification for a plain `.mp4` locator, and with neither signal a
`.m3u8` locator on a live path is still classified not live. -/
theorem isLive_two_signal_or_witness :
    isLive ⟨some "http://x/v.mp4", some "video/mp4",
            StreamType.LIVE, none⟩ = true ∧
    isLive ⟨some "http://x/live/chan.m3u8", some "application/x-mpegURL",
            StreamType.BUFFERED, some ⟨none, none⟩⟩ = false :=
  ⟨isLive_two_signal_or.1 _ rfl,
   isLive_two_signal_or.2.2.2 _ (by decide) (by decide)⟩

/-- C4 counterexample: a LOAD with locator ending in `.m3u8` and
declared content type `video/mp4` comes back from the interceptor with
content type still `video/mp4`, not the canonical streaming-playlist
MIME `application/x-mpegURL` — the source never writes `contentType`. -/
theorem mime_not_corrected_counterexample :
    endsWithExt "https://x/chan.m3u8" ".m3u8" = true ∧
    ((loadInterceptor []
        ⟨some ⟨some "https://x/chan.m3u8", some "video/mp4",
               StreamType.BUFFERED, none⟩⟩).returned.media.map
        MediaInformation.contentType) = some (some "video/mp4") ∧
    some (some "video/mp4") ≠ some (some "application/x-mpegURL") := by
  decide

/-- C4 amended: the descriptor returned by the LOAD interceptor carries
the caller's declared content type unchanged for every LOAD — no MIME
correction is ever applied, playlist extension or not. -/
theorem contentType_preserved (store : HeaderMap)
    (L : LoadRequestData) (m : MediaInformation) (hm : L.media = some m) :
    ∃ m', (loadInterceptor store L).returned.media = some m'
      ∧ m'.contentType = m.contentType := by
  refine ⟨m, ?_, rfl⟩
  rw [loadInterceptor_returned_eq, hm]

/-- Witness for C4 amended: the `video/mp4` + `.m3u8` LOAD keeps content
type `video/mp4`. -/
theorem contentType_preserved_witness :
    ∃ m', (loadInterceptor []
        ⟨some ⟨some "https://x/chan.m3u8", some "video/mp4",
               StreamType.BUFFERED, none⟩⟩).returned.media = some m'
      ∧ m'.contentType = (⟨some "https://x/chan.m3u8", some "video/mp4",
            StreamType.BUFFERED, none⟩ : MediaInformation).contentType :=
  contentType_preserved [] _
    ⟨some "https://x/chan.m3u8", some "video/mp4", StreamType.BUFFERED, none⟩ rfl

/-- C5 counterexample: on a LOAD with missing media the interceptor
emits NO status-surface update (`updateDebugStatus` is never called on
that path; the failure is only logged via `console.error`), refuting the
conjunct "the failure is reported via the status surface". -/
theorem validation_no_status_update :
    (loadInterceptor [("K", "v")] ⟨none⟩).statusUpdates = []
      ∧ (loadInterceptor [("K", "v")] ⟨none⟩).errorLogged = true := by
  decide

/-- C5 amended: a LOAD with missing media or an untruthy (missing or
empty) content locator returns the descriptor unchanged without
crashing, leaves the Header Store exactly at its prior value, performs
no classification, logs a console error, and emits no status-surface
update. -/
theorem validation_short_circuit (store : HeaderMap) (L : LoadRequestData)
    (hinv : L.media = none
      ∨ ∃ m, L.media = some m ∧ jsTruthyStr m.contentId = false) :
    loadInterceptor store L =
      { returned := L, store := store, statusUpdates := [],
        errorLogged := true, classification := none } := by
  rcases hinv with h | ⟨m, hm, hv⟩
  · unfold loadInterceptor
    rw [h]
  · unfold loadInterceptor
    rw [hm]
    simp [hv]

/-- Witness for C5 amended: a LOAD whose media has an empty content
locator, against a non-empty prior store. -/
theorem validation_short_circuit_witness :
    loadInterceptor [("K", "v")]
        ⟨some ⟨some "", some "video/mp4", StreamType.BUFFERED,
               some ⟨some [("B", "b")], some true⟩⟩⟩
      = { returned := ⟨some ⟨some "", some "video/mp4", StreamType.BUFFERED,
            some ⟨some [("B", "b")], some true⟩⟩⟩,
          store := [("K", "v")], statusUpdates := [],
          errorLogged := true, classification := none } :=
  validation_short_circuit [("K", "v")] _
    (Or.inr ⟨⟨some "", some "video/mp4", StreamType.BUFFERED,
              some ⟨some [("B", "b")], some true⟩⟩, rfl, by decide⟩)

/-- C6: the Request Augmenter is idempotent — augmenting the same
request twice with the same Header Store (JS-object distinct keys)
yields exactly the header collection a single augmentation yields. -/
theorem injectAuthHeaders_idem (store : HeaderMap) (req : RequestInfo)
    (hnd : (keysOf store).Nodup) :
    injectAuthHeaders store (injectAuthHeaders store req)
      = injectAuthHeaders store req := by
  simp only [injectAuthHeaders_eq]
  simp [injectList_idem store req.headers hnd]

/-- Witness for C6 at a two-entry store over a request with one
overlapping and one foreign header. -/
theorem injectAuthHeaders_idem_witness :
    injectAuthHeaders [("A", "1"), ("B", "2")]
        (injectAuthHeaders [("A", "1"), ("B", "2")]
          ⟨"https://x/seg.ts", [("B", "old"), ("C", "3")]⟩)
      = injectAuthHeaders [("A", "1"), ("B", "2")]
          ⟨"https://x/seg.ts", [("B", "old"), ("C", "3")]⟩ :=
  injectAuthHeaders_idem [("A", "1"), ("B", "2")]
    ⟨"https://x/seg.ts", [("B", "old"), ("C", "3")]⟩ (by decide)

/-- C7: with an empty Header Store the Request Augmenter is a complete
no-op — the request comes back exactly as the host supplied it — and for
every store it touches nothing but the header collection (the URL, the
only other request field, is preserved). -/
theorem injectAuthHeaders_empty_noop :
    (∀ req : RequestInfo, injectAuthHeaders [] req = req) ∧
    (∀ (store : HeaderMap) (req : RequestInfo),
        (injectAuthHeaders store req).url = req.url) := by
  constructor
  · intro req
    rfl
  · intro store req
    rw [injectAuthHeaders_eq]

/-- C8: the ERROR listener always returns one of exactly two status
updates (it never throws or terminates the process), and it reports the
authentication-specific failure exactly when the detailed error code is
a present string containing `"403"` or `"401"`. -/
theorem error_auth_classification (c : Option String) :
    (errorListener c = ⟨authErrorMsg, true⟩
        ∨ errorListener c = ⟨playbackErrorMsg, true⟩) ∧
    (errorListener c = ⟨authErrorMsg, true⟩ ↔
        ∃ s, c = some s ∧ (includes s "403" = true ∨ includes s "401" = true)) := by
  cases c with
  | none =>
      refine ⟨Or.inr rfl, ?_, ?_⟩
      · intro h
        exact absurd h (by decide)
      · rintro ⟨s, hs, _⟩
        cases hs
  | some s =>
      by_cases hb : (includes s "403" || includes s "401") = true
      · have hs : s ≠ "" := by
          intro he
          subst he
          simp [includes, containsPat, List.isEmpty] at hb
        have hres : errorListener (some s) = ⟨authErrorMsg, true⟩ := by
          unfold errorListener
          simp [jsTruthyStr, hs, hb]
        refine ⟨Or.inl hres, fun _ => ?_, fun _ => hres⟩
        rcases Bool.or_eq_true_iff.mp hb with h | h
        · exact ⟨s, rfl, Or.inl h⟩
        · exact ⟨s, rfl, Or.inr h⟩
      · have hres : errorListener (some s) = ⟨playbackErrorMsg, true⟩ := by
          unfold errorListener
          simp only [Bool.not_eq_true] at hb
          simp [hb]
        refine ⟨Or.inr hres, ?_, ?_⟩
        · intro h
          rw [hres] at h
          exact absurd h (by decide)
        · rintro ⟨s', hs', hor⟩
          obtain rfl : s = s' := Option.some.injEq .. ▸ hs'
          rcases hor with h | h <;> simp [h] at hb

/-- C9: the LOAD interceptor returns the very descriptor it was handed,
with every field — contentId, contentType, streamType, customData —
exactly as received: it reads and classifies but never writes the
descriptor. -/
theorem load_descriptor_unchanged (store : HeaderMap) (L : LoadRequestData) :
    (loadInterceptor store L).returned = L :=
  loadInterceptor_returned_eq store L

/-- C10: the Request Augmenter leaves every header entry whose key is
not a key of the Header Store exactly as the host supplied it. -/
theorem injectAuthHeaders_frame (store : HeaderMap) (req : RequestInfo)
    (k : String) (hk : k ∉ keysOf store) :
    getKey (injectAuthHeaders store req).headers k = getKey req.headers k := by
  rw [injectAuthHeaders_eq]
  exact getKey_injectList_notMem store req.headers k hk

/-- Witness for C10: the host default `Accept ↦ x` survives augmentation
with a store that does not mention `Accept`. -/
theorem injectAuthHeaders_frame_witness :
    getKey (injectAuthHeaders [("Authorization", "Bearer abc")]
        ⟨"https://x/seg.ts", [("Accept", "x")]⟩).headers "Accept"
      = getKey (⟨"https://x/seg.ts", [("Accept", "x")]⟩ : RequestInfo).headers
          "Accept" :=
  injectAuthHeaders_frame [("Authorization", "Bearer abc")]
    ⟨"https://x/seg.ts", [("Accept", "x")]⟩ "Accept" (by decide)

end Receiver
